import Mathlib

/-!
# Verification of the Host Network Integration Layer of veilnet-conflux

A shallow embedding of the Go sources of `veilnet-conflux` (the Linux variant
in `src/unnamed/part_000`, the macOS variant in `src/conflux/conflux_darwin.go`,
the CLI layer in `src/conflux/conflux.go` and `src/main.go`).

External effects (DNS resolution, `ip`/`route`/`sysctl` command execution) are
modelled as oracle inputs: a resolver function, and boolean oracles saying
whether a given external command succeeds.  Command invocations themselves are
reified as data (lists of issued commands, route-table transformations) so that
theorems can speak about exactly which commands a code path issues.

String manipulation from the Go standard library (`strings.Split`,
`strings.Fields`, `strings.HasPrefix`, `strings.TrimSpace`) is embedded as
structurally recursive functions over `List Char` so that every definition
evaluates by kernel reduction; `String` is kept at the boundaries.
-/

namespace Conflux

/-! ## Generic helpers for the Go string functions -/

/-- Characters treated as spaces by `unicode.IsSpace` in the ASCII range
(`strings.Fields` splits on these). -/
def isSpaceChar (c : Char) : Bool :=
  (c == ' ') || (c == '\t') || (c == '\n') || (c == '\x0b') || (c == '\x0c') || (c == '\r')

/-- Split a character list at every character satisfying `p`; separators are
dropped and empty segments are kept, as in Go's `strings.Split`. -/
def splitWhen (p : Char → Bool) : List Char → List (List Char)
  | [] => [[]]
  | c :: rest =>
    match splitWhen p rest with
    | [] => [[c]]
    | cur :: parts => if p c then [] :: cur :: parts else (c :: cur) :: parts

/-- Go's `strings.Split(s, sep)` for a one-character separator. -/
def splitOnChar (sep : Char) (cs : List Char) : List (List Char) :=
  splitWhen (fun c => c == sep) cs

/-- Go's `strings.Fields`: split on whitespace runs, dropping empty fields. -/
def fieldsOf (cs : List Char) : List (List Char) :=
  (splitWhen isSpaceChar cs).filter (fun f => !f.isEmpty)

/-- Go's `strings.HasPrefix(s, pat)`: does `s` begin with `pat`? -/
def leadsWith : List Char → List Char → Bool
  | [], _ => true
  | _ :: _, [] => false
  | p :: ps, c :: cs => p == c && leadsWith ps cs

/-- Go's `strings.TrimSpace` (ASCII whitespace). -/
def trimChars (cs : List Char) : List Char :=
  ((cs.dropWhile isSpaceChar).reverse.dropWhile isSpaceChar).reverse

/-- The last element of a list, if any (used to describe which of several
assignments to the same variable survives a loop). -/
def lastSome {α : Type} : List α → Option α
  | [] => none
  | a :: rest =>
    match lastSome rest with
    | none => some a
    | some w => some w

/-- Go's `make([]byte, n)`: a zero-filled buffer. -/
def goMake (n : Nat) : List Nat := List.replicate n 0

/-- Go's `copy(dst, src)`: overwrite the first `min |dst| |src|` bytes of `dst`
with the corresponding bytes of `src`, keeping the rest of `dst`. -/
def goCopy (dst src : List Nat) : List Nat :=
  src.take dst.length ++ dst.drop src.length

/-! ## Bypass Route Manager (`AddBypassRoutes` / `RemoveBypassRoutes`,
`src/unnamed/part_000` lines 186-221)

The `sync.Map` field `bypassRoutes` is embedded as an association list in
insertion order (`Store` overwrites in place, `Range` visits entries in list
order).  DNS resolution (`net.LookupIP` plus `ip.To4()`) is an oracle
`lookup : String → Except String (List (Option String))`: an `Except.error`
models a failed lookup, and each list element is `some dest` for an address
whose `To4()` is the IPv4 dotted string `dest`, or `none` for a non-IPv4
address.  The `ip route add` invocation's result is discarded by the source
(`cmd.Run()` on line 202 with no error check), so the embedding records only
which destinations had an add command issued (`adds`). -/

/-- The fixed hostname allow-list (`part_000` line 187). -/
def bypassHosts : List String :=
  ["stun.cloudflare.com", "turn.cloudflare.com", "guardian.veilnet.org"]

/-- State of the bypass-route manager: the `bypassRoutes` map contents
(hostname ↦ stored destination) and the list of destinations for which an
`ip route add` command was issued. -/
structure BypassState where
  routes : List (String × String)
  adds : List String

/-- `sync.Map.Store`: overwrite the entry for `k` in place, or append. -/
def storeAssoc (m : List (String × String)) (k v : String) : List (String × String) :=
  match m with
  | [] => [(k, v)]
  | (k', v') :: rest => if k' = k then (k, v) :: rest else (k', v') :: storeAssoc rest k v

/-- The inner loop of `AddBypassRoutes` (`part_000` lines 197-206): for every
resolved address whose `To4()` is non-nil, issue `ip route add` (result
ignored) and `Store(host, dest)`. -/
def addRoutesForHost (st : BypassState) (host : String) : List (Option String) → BypassState
  | [] => st
  | ip :: rest =>
    match ip with
    | some dest =>
      addRoutesForHost ⟨storeAssoc st.routes host dest, st.adds ++ [dest]⟩ host rest
    | none => addRoutesForHost st host rest

/-- One iteration of the outer loop of `AddBypassRoutes`: a failed lookup is
logged and skipped (`continue`, lines 192-195). -/
def bypassStep (lookup : String → Except String (List (Option String)))
    (st : BypassState) (host : String) : BypassState :=
  match lookup host with
  | .error _ => st
  | .ok ips => addRoutesForHost st host ips

/-- `AddBypassRoutes` (`part_000` lines 186-208), starting from the empty map. -/
def AddBypassRoutes (lookup : String → Except String (List (Option String))) : BypassState :=
  bypassHosts.foldl (bypassStep lookup) ⟨[], []⟩

/-- The `bypassRoutes.Range` body of `RemoveBypassRoutes` (`part_000` lines
211-220): issue `ip route del value`; on command failure the callback returns
`false`, which stops the `Range` iteration.  `delOk dest` is the oracle saying
whether the delete command for `dest` exits successfully.  Returns the list of
destinations for which a delete command was issued. -/
def rangeDeletes (delOk : String → Bool) : List (String × String) → List String
  | [] => []
  | (_, dest) :: rest =>
    if delOk dest then dest :: rangeDeletes delOk rest else [dest]

/-- `RemoveBypassRoutes` (`part_000` lines 210-221).  Returns the deletes
issued and the resulting manager state; `Range` never removes map entries, so
the state is returned unchanged. -/
def RemoveBypassRoutes (delOk : String → Bool) (st : BypassState) :
    List String × BypassState :=
  (rangeDeletes delOk st.routes, st)

/-- The last IPv4 address resolved for `host` (the value that the final
`Store(host, dest)` of the inner loop leaves in the map). -/
def lastV4 (lookup : String → Except String (List (Option String))) (host : String) :
    Option String :=
  match lookup host with
  | .error _ => none
  | .ok ips => lastSome (ips.filterMap id)

/-- Concrete resolver for the multi-address scenario: `stun.cloudflare.com`
resolves to two IPv4 addresses, the other hostnames to none. -/
def lkTwoAddrs : String → Except String (List (Option String)) := fun h =>
  if h = "stun.cloudflare.com" then .ok [some "1.1.1.1", some "2.2.2.2"] else .ok []

/-- Concrete resolver: two hostnames with one IPv4 address each. -/
def lkTwoHosts : String → Except String (List (Option String)) := fun h =>
  if h = "stun.cloudflare.com" then .ok [some "1.1.1.1"]
  else if h = "turn.cloudflare.com" then .ok [some "2.2.2.2"]
  else .ok []

/-- Concrete resolver: a single hostname with a single IPv4 address. -/
def lkOneAddr : String → Except String (List (Option String)) := fun h =>
  if h = "guardian.veilnet.org" then .ok [some "9.9.9.9"] else .error "lookup failed"

/-- Command-success oracle under which every `ip route` invocation fails
(models, e.g., a missing route or insufficient privilege). -/
def cmdAllFail : String → Bool := fun _ => false

/-! ## Gateway Detector (`DetectHostGateway`, `src/unnamed/part_000` lines
147-184)

The output of `ip route show default` is an oracle
`cmdOut : Except String String` (`Except.error` models `cmd.Output()` failing).
The source splits the output on newlines, looks for the first line with the
string prefix `default` (`strings.HasPrefix`), scans that line's
whitespace-separated fields for `via`/`dev` followed by a value (later
occurrences overwrite earlier ones), breaks out of the line loop, and errors
when either value is still empty. -/

def defaultChars : List Char := ['d', 'e', 'f', 'a', 'u', 'l', 't']

def viaChars : List Char := ['v', 'i', 'a']

def devChars : List Char := ['d', 'e', 'v']

/-- The field scan of `DetectHostGateway` (`part_000` lines 160-168): walk the
fields; whenever field `i` is `via` (resp. `dev`) and a field `i+1` exists,
assign it to the gateway (resp. interface). -/
def scanFields : List (List Char) → List Char → List Char → List Char × List Char
  | [], g, d => (g, d)
  | [_], g, d => (g, d)
  | x :: y :: rest, g, d =>
    scanFields (y :: rest) (if x = viaChars then y else g) (if x = devChars then y else d)

/-- `DetectHostGateway` (`part_000` lines 147-184). -/
def DetectHostGateway (cmdOut : Except String String) : Except String (String × String) :=
  match cmdOut with
  | .error e => .error e
  | .ok out =>
    match (splitOnChar '\n' out.data).find? (fun l => leadsWith defaultChars l) with
    | some line =>
      let gd := scanFields (fieldsOf line) [] []
      if gd.1 = [] ∨ gd.2 = [] then .error "host default gateway or interface not found"
      else .ok (String.mk gd.1, String.mk gd.2)
    | none => .error "host default gateway or interface not found"

/-- The value following the last occurrence of the field `key` in `fs` (only
occurrences that have a following field count). -/
def lastAfter (key : List Char) (fs : List (List Char)) : Option (List Char) :=
  lastSome ((fs.zip fs.tail).filterMap (fun p => if p.1 = key then some p.2 else none))

/-- The first line of `ls` beginning with `default`. -/
def firstDefaultLine : List (List Char) → Option (List Char)
  | [] => none
  | l :: rest => if leadsWith defaultChars l then some l else firstDefaultLine rest

/-- The amended contract of the detector, written from the amended claim:
consider only the first line beginning with `default`; take the gateway from
the value after the last `via` field and the interface from the value after
the last `dev` field of that line; fail when the command fails, when no line
begins with `default`, or when that first line lacks either value. -/
def DetectHostGatewayAmended (cmdOut : Except String String) :
    Except String (String × String) :=
  match cmdOut with
  | .error e => .error e
  | .ok out =>
    match firstDefaultLine (splitOnChar '\n' out.data) with
    | none => .error "host default gateway or interface not found"
    | some line =>
      let g := (lastAfter viaChars (fieldsOf line)).getD []
      let d := (lastAfter devChars (fieldsOf line)).getD []
      if g = [] ∨ d = [] then .error "host default gateway or interface not found"
      else .ok (String.mk g, String.mk d)

/-- The original claim's notion of a default-route line that "yields both a
gateway and an interface": it begins with `default` and scanning its fields
produces a non-empty gateway and a non-empty interface. -/
def lineYieldsBoth (l : List Char) : Bool :=
  leadsWith defaultChars l
    && !(scanFields (fieldsOf l) [] []).1.isEmpty
    && !(scanFields (fieldsOf l) [] []).2.isEmpty

/-! ## Packet Relay ingress (`ingress`, `src/unnamed/part_000` lines 231-251)

For each of the `n` datagrams returned by the batched read, the loop body
allocates `newBuf := make([]byte, 16+len(bufs[i]))`, copies the datagram to
`newBuf[16:]`, replaces `bufs[i]`, and finally calls
`c.device.Write(bufs[:n], 16)`.  Bytes are modelled as `Nat`. -/

/-- The per-datagram re-framing of the ingress loop (lines 244-246). -/
def ingressNewBuf (buf : List Nat) : List Nat :=
  let newBuf := goMake (16 + buf.length)
  newBuf.take 16 ++ goCopy (newBuf.drop 16) buf

/-- One pass of the ingress body over the `n` datagrams of a batch: the buffer
list handed to `device.Write`. -/
def ingressBatch (bufs : List (List Nat)) : List (List Nat) :=
  bufs.map ingressNewBuf

/-- The constant offset argument of the `device.Write(bufs[:n], 16)` call. -/
def ingressWriteOffset : Nat := 16

/-! ## Host Route Configurator, Rift branch (`ConfigHost` lines 362-382,
`CleanHostConfiguraions` lines 426-444 of `src/unnamed/part_000`)

Only the default-route table is modelled: the commands of the Rift branch that
touch it.  (The bypass route to the veil host, the address assignment and the
link-up command do not modify default-route entries.)  A route is a default
route entry `{via, dev, metric}`; `ip route add` without an explicit metric
installs metric 0, and `ip route del` removes the first entry matching every
attribute given on the command line, attributes left unspecified matching
anything. -/

/-- A default-route table entry: `ip route` `via` gateway (if any), output
device (if any), and metric. -/
structure Route where
  via : Option String
  dev : Option String
  metric : Nat
deriving DecidableEq

/-- An `ip route` command over default routes: attributes that the command
line leaves unspecified are `none`. -/
inductive RouteCmd where
  | add (via : Option String) (dev : Option String) (metric : Option Nat)
  | del (via : Option String) (dev : Option String) (metric : Option Nat)
deriving DecidableEq

/-- Does route `r` match the attribute pattern of a `del` command? -/
def routeMatches (pvia pdev : Option String) (pmetric : Option Nat) (r : Route) : Bool :=
  (match pvia with | none => true | some x => decide (r.via = some x))
    && (match pdev with | none => true | some x => decide (r.dev = some x))
    && (match pmetric with | none => true | some m => decide (r.metric = m))

/-- Remove the first route satisfying `p` (no-op when none matches). -/
def delFirst (p : Route → Bool) : List Route → List Route
  | [] => []
  | r :: rest => if p r then rest else r :: delFirst p rest

/-- Apply one `ip route` command to the default-route table. -/
def runCmd (t : List Route) : RouteCmd → List Route
  | .add v d m => t ++ [⟨v, d, m.getD 0⟩]
  | .del v d m => delFirst (routeMatches v d m) t

/-- Apply a command sequence left to right. -/
def runCmds (t : List Route) (cs : List RouteCmd) : List Route :=
  cs.foldl runCmd t

/-- The default-route commands of the Rift (non-portal) branch of `ConfigHost`
(`part_000` lines 362-381): delete the original default route, re-add it at
metric 50, then add a default route through the `veilnet` device. -/
def riftApplyCmds (gateway iface : String) : List RouteCmd :=
  [ .del (some gateway) (some iface) none,
    .add (some gateway) (some iface) (some 50),
    .add none (some "veilnet") none ]

/-- The default-route commands of the Rift branch of `CleanHostConfiguraions`
(`part_000` lines 426-444): delete the `veilnet` default route, delete the
demoted default route, then restore `ip route add default via gateway dev
iface` — with no metric argument. -/
def riftCleanCmds (gateway iface : String) : List RouteCmd :=
  [ .del none (some "veilnet") none,
    .del (some gateway) (some iface) none,
    .add (some gateway) (some iface) none ]

/-! ## Host Route Configurator, Portal branch: IP forwarding
(`ConfigHost` lines 340-361, `CleanHostConfiguraions` lines 418-425)

The host's `net.ipv4.ip_forward` state is a `Bool`; `sysctl -n` prints `"1\n"`
or `"0\n"`, and the source compares `strings.TrimSpace(output)` with `"1"`. -/

/-- Output of `sysctl -n net.ipv4.ip_forward` for a given host state. -/
def sysctlRead (ipForward : Bool) : String := if ipForward then "1\n" else "0\n"

/-- The forwarding part of the Portal branch of `ConfigHost` (lines 340-361):
record whether forwarding was already on, and enable it if not.  Returns
`(ipForwardEnabled as recorded, new host forwarding state)`. -/
def portalApplyForward (host : Bool) : Bool × Bool :=
  let ipForwardEnabled := trimChars (sysctlRead host).data = "1".data
  if !ipForwardEnabled then (ipForwardEnabled, true) else (ipForwardEnabled, host)

/-- The forwarding part of the Portal branch of `CleanHostConfiguraions`
(lines 418-425): run `sysctl -w net.ipv4.ip_forward=0` exactly when the
recorded flag is false.  Returns `(new host state, whether the disable
command was issued)`. -/
def portalCleanForward (ipForwardEnabled : Bool) (host : Bool) : Bool × Bool :=
  if !ipForwardEnabled then (false, true) else (host, false)

/-! ## Shutdown guard (`Stop`, `src/unnamed/part_000` lines 97-109)

`Stop` wraps the whole teardown body in `c.once.Do`.  The body: stop the
anchor (guarded by `c.anchor != nil`), set `c.anchor = nil`, retract the host
configuration, remove the bypass routes, close the device (guarded by
`c.device != nil`).  The model records each teardown step as an event. -/

inductive TeardownStep where
  | anchorStop
  | cleanHost
  | removeBypass
  | closeDevice
deriving DecidableEq

/-- The once-guard and the nil-guarded resources of the `conflux` struct. -/
structure ConfluxStop where
  onceDone : Bool
  anchorPresent : Bool
  devicePresent : Bool
deriving DecidableEq

/-- The body of `Stop` (lines 99-107), as the ordered list of teardown steps
it performs. -/
def stopBody (anchorPresent devicePresent : Bool) : List TeardownStep :=
  (if anchorPresent then [TeardownStep.anchorStop] else [])
    ++ [TeardownStep.cleanHost, TeardownStep.removeBypass]
    ++ (if devicePresent then [TeardownStep.closeDevice] else [])

/-- `Stop` (lines 97-109): `once.Do` runs the body only on the first call. -/
def Stop (c : ConfluxStop) : ConfluxStop × List TeardownStep :=
  if c.onceDone then (c, [])
  else ({ onceDone := true, anchorPresent := false, devicePresent := c.devicePresent },
        stopBody c.anchorPresent c.devicePresent)

/-- `n` successive invocations of `Stop`, with the concatenated event trace. -/
def runStops : Nat → ConfluxStop → ConfluxStop × List TeardownStep
  | 0, c => (c, [])
  | n + 1, c =>
    let s1 := Stop c
    let s2 := runStops n s1.1
    (s2.1, s1.2 ++ s2.2)

/-! ## CLI shutdown path (`Up.Run`, `src/conflux/conflux.go` lines 140-165,
and `main`, `src/main.go`)

After the signal arrives, `Up.Run` races `conflux.Stop()` against a 10-second
timer; **both** `select` branches only log, and `Run` then returns `nil`.
`main` exits with code 1 exactly when `ctx.Run()` returned an error, and falls
off `main` (exit code 0) otherwise. -/

inductive ShutdownOutcome where
  | completed
  | timedOut
deriving DecidableEq

/-- The tail of `Up.Run` after the stop signal (`conflux.go` lines 148-165):
the `select` logs "Shutdown completed successfully" or "Shutdown timeout,
forcing exit", and in either case `Run` returns `nil`. -/
def upRunAfterSignal (o : ShutdownOutcome) : Option String :=
  match o with
  | .completed => none
  | .timedOut => none

/-- `main` (`src/main.go` lines 13-22): `os.Exit(1)` when `ctx.Run()` returns
an error, otherwise the process ends normally with exit code 0. -/
def mainExitCode (runResult : Option String) : Nat :=
  match runResult with
  | some _ => 1
  | none => 0

/-! ## macOS netmask conversion (`convertNetmask`,
`src/conflux/conflux_darwin.go` lines 325-339) -/

/-- `convertNetmask`: CIDR-suffix string to dotted-decimal mask; every value
other than `8`, `16`, `24`, `32` falls through to the default `/24` mask. -/
def convertNetmask (cidr : String) : String :=
  if cidr = "8" then "255.0.0.0"
  else if cidr = "16" then "255.255.0.0"
  else if cidr = "24" then "255.255.255.0"
  else if cidr = "32" then "255.255.255.255"
  else "255.255.255.0"

/-- The argument vector of the `ifconfig` invocation of the darwin `ConfigHost`
(`conflux_darwin.go` line 295). -/
def darwinIfconfigArgs (ip netmask : String) : List String :=
  ["veilnet", "inet", ip, "netmask", convertNetmask netmask]

end Conflux

namespace Conflux

/-! ## Helper lemmas -/

/-- When every delete command succeeds, the `Range` body visits every map
entry and issues one delete per entry, in order. -/
theorem rangeDeletes_all_ok (delOk : String → Bool) (hdel : ∀ x, delOk x = true) :
    ∀ m : List (String × String), rangeDeletes delOk m = m.map Prod.snd := by
  intro m
  induction m with
  | nil => rfl
  | cons p rest ih =>
    obtain ⟨k, v⟩ := p
    simp [rangeDeletes, hdel v, ih]

/-- Two consecutive `Store`s under the same key collapse to the second. -/
theorem storeAssoc_override (m : List (String × String)) (k v w : String) :
    storeAssoc (storeAssoc m k v) k w = storeAssoc m k w := by
  induction m with
  | nil => simp [storeAssoc]
  | cons p rest ih =>
    obtain ⟨a, b⟩ := p
    by_cases hk : a = k <;> simp [storeAssoc, hk, ih]

/-- `Store` under a fresh key appends the entry. -/
theorem storeAssoc_of_not_mem (m : List (String × String)) (k v : String)
    (h : k ∉ m.map Prod.fst) : storeAssoc m k v = m ++ [(k, v)] := by
  induction m with
  | nil => rfl
  | cons p rest ih =>
    obtain ⟨a, b⟩ := p
    simp only [List.map_cons, List.mem_cons] at h
    push_neg at h
    simp [storeAssoc, Ne.symm h.1, ih h.2]

/-- Entries of the map after a `Store` are the stored pair or old entries. -/
theorem mem_storeAssoc {m : List (String × String)} {k v : String}
    {p : String × String} : p ∈ storeAssoc m k v → p = (k, v) ∨ p ∈ m := by
  induction m with
  | nil => intro h; simpa [storeAssoc] using h
  | cons q rest ih =>
    obtain ⟨a, b⟩ := q
    intro h
    by_cases hk : a = k
    · simp only [storeAssoc, if_pos hk, List.mem_cons] at h
      rcases h with h | h
      · exact Or.inl h
      · exact Or.inr (List.mem_cons_of_mem _ h)
    · simp only [storeAssoc, if_neg hk, List.mem_cons] at h
      rcases h with h | h
      · exact Or.inr (h ▸ List.mem_cons_self _ _)
      · rcases ih h with h' | h'
        · exact Or.inl h'
        · exact Or.inr (List.mem_cons_of_mem _ h')

/-- The map after the inner loop over one hostname: unchanged when no IPv4 was
resolved, otherwise the hostname is bound to the **last** resolved IPv4. -/
theorem addRoutesForHost_routes (ips : List (Option String)) :
    ∀ (st : BypassState) (h : String),
      (addRoutesForHost st h ips).routes =
        match lastSome (ips.filterMap id) with
        | none => st.routes
        | some d => storeAssoc st.routes h d := by
  induction ips with
  | nil => intro st h; rfl
  | cons ip rest ih =>
    intro st h
    cases ip with
    | none => simpa [addRoutesForHost, List.filterMap_cons] using ih st h
    | some d =>
      simp only [addRoutesForHost]
      rw [ih]
      cases hL : lastSome (rest.filterMap id) with
      | none => simp [List.filterMap_cons, lastSome, hL]
      | some w => simp [List.filterMap_cons, lastSome, hL, storeAssoc_override]

/-- The add commands issued by the inner loop over one hostname: one per
resolved IPv4, in resolution order. -/
theorem addRoutesForHost_adds (ips : List (Option String)) :
    ∀ (st : BypassState) (h : String),
      (addRoutesForHost st h ips).adds = st.adds ++ ips.filterMap id := by
  induction ips with
  | nil => intro st h; simp [addRoutesForHost]
  | cons ip rest ih =>
    intro st h
    cases ip with
    | none => simp [addRoutesForHost, ih, List.filterMap_cons]
    | some d => simp [addRoutesForHost, ih, List.filterMap_cons]

/-- Characterization of the map built by the hostname loop: one entry per
hostname with at least one resolved IPv4, bound to its last resolved IPv4. -/
theorem foldl_bypass_routes (lookup : String → Except String (List (Option String))) :
    ∀ (hs : List String) (st : BypassState), hs.Nodup →
      (∀ h ∈ hs, h ∉ st.routes.map Prod.fst) →
      (hs.foldl (bypassStep lookup) st).routes =
        st.routes ++ hs.filterMap (fun h => (lastV4 lookup h).map (fun d => (h, d))) := by
  intro hs
  induction hs with
  | nil => intro st _ _; simp
  | cons h t ih =>
    intro st hnd hdisj
    have hmem : h ∉ st.routes.map Prod.fst := hdisj h (List.mem_cons_self _ _)
    have hnott : h ∉ t := (List.nodup_cons.mp hnd).1
    rw [List.foldl_cons]
    cases hlk : lookup h with
    | error e =>
      have hstep : bypassStep lookup st h = st := by simp [bypassStep, hlk]
      have hlast : lastV4 lookup h = none := by simp [lastV4, hlk]
      rw [hstep, ih st (List.nodup_cons.mp hnd).2
        (fun x hx => hdisj x (List.mem_cons_of_mem _ hx))]
      simp [List.filterMap_cons, hlast]
    | ok ips =>
      have hstep : bypassStep lookup st h = addRoutesForHost st h ips := by
        simp [bypassStep, hlk]
      have hlast : lastV4 lookup h = lastSome (ips.filterMap id) := by
        simp [lastV4, hlk]
      rw [hstep]
      cases hL : lastSome (ips.filterMap id) with
      | none =>
        have hr : (addRoutesForHost st h ips).routes = st.routes := by
          rw [addRoutesForHost_routes]
          simp [hL]
        rw [ih (addRoutesForHost st h ips) (List.nodup_cons.mp hnd).2
          (fun x hx => by rw [hr]; exact hdisj x (List.mem_cons_of_mem _ hx)), hr]
        simp [List.filterMap_cons, hlast, hL]
      | some d =>
        have hr : (addRoutesForHost st h ips).routes = st.routes ++ [(h, d)] := by
          rw [addRoutesForHost_routes]
          simp only [hL]
          exact storeAssoc_of_not_mem _ _ _ hmem
        have hdisj' : ∀ x ∈ t, x ∉ (addRoutesForHost st h ips).routes.map Prod.fst := by
          intro x hx
          rw [hr]
          simp only [List.map_append, List.map_cons, List.map_nil, List.mem_append,
            List.mem_cons, List.not_mem_nil]
          rintro (hmem' | hxh)
          · exact hdisj x (List.mem_cons_of_mem _ hx) hmem'
          · rcases hxh with hxh | hfalse
            · exact hnott (hxh ▸ hx)
            · exact hfalse
        rw [ih _ (List.nodup_cons.mp hnd).2 hdisj', hr]
        simp [List.filterMap_cons, hlast, hL]

/-- Every value recorded in the map had an add command issued for it. -/
theorem addRoutesForHost_inv (ips : List (Option String)) :
    ∀ (st : BypassState) (h : String), (∀ p ∈ st.routes, p.2 ∈ st.adds) →
      ∀ p ∈ (addRoutesForHost st h ips).routes, p.2 ∈ (addRoutesForHost st h ips).adds := by
  induction ips with
  | nil => intro st h hinv; simpa [addRoutesForHost] using hinv
  | cons ip rest ih =>
    intro st h hinv
    cases ip with
    | none => simp only [addRoutesForHost]; exact ih st h hinv
    | some d =>
      simp only [addRoutesForHost]
      apply ih
      intro p hp
      rcases mem_storeAssoc hp with rfl | hp'
      · simp
      · exact List.mem_append_left _ (hinv p hp')

/-- The recorded-value-was-added invariant holds across the hostname loop. -/
theorem foldl_bypass_inv (lookup : String → Except String (List (Option String))) :
    ∀ (hs : List String) (st : BypassState), (∀ p ∈ st.routes, p.2 ∈ st.adds) →
      ∀ p ∈ (hs.foldl (bypassStep lookup) st).routes,
        p.2 ∈ (hs.foldl (bypassStep lookup) st).adds := by
  intro hs
  induction hs with
  | nil => intro st hinv; simpa using hinv
  | cons h t ih =>
    intro st hinv
    rw [List.foldl_cons]
    apply ih
    cases hlk : lookup h with
    | error e => simpa [bypassStep, hlk] using hinv
    | ok ips =>
      simp only [bypassStep, hlk]
      exact addRoutesForHost_inv ips st h hinv

end Conflux

namespace Conflux

/-! ## Claim C1 -/

/-- Claim C1, counterexample.  With `stun.cloudflare.com` resolving to the two
IPv4 addresses `1.1.1.1` and `2.2.2.2` (and every delete command succeeding),
`AddBypassRoutes` issues an install for both addresses, but teardown issues a
delete only for `2.2.2.2`: the `Store(host, dest)` keyed by hostname
overwrote the entry for `1.1.1.1`, so that installed route never receives a
delete; and the bypass-route table still holds its entry after teardown,
since `Range` never removes entries. -/
theorem C1_counterexample :
    "1.1.1.1" ∈ (AddBypassRoutes lkTwoAddrs).adds ∧
    (RemoveBypassRoutes (fun _ => true) (AddBypassRoutes lkTwoAddrs)).1 = ["2.2.2.2"] ∧
    "1.1.1.1" ∉ (RemoveBypassRoutes (fun _ => true) (AddBypassRoutes lkTwoAddrs)).1 ∧
    (RemoveBypassRoutes (fun _ => true) (AddBypassRoutes lkTwoAddrs)).2.routes ≠ [] := by
  decide

/-- Claim C1 as amended: for every run of `AddBypassRoutes` over the fixed
hostname list followed by `RemoveBypassRoutes` in which all delete commands
succeed, the bypass-route table holds exactly one entry per hostname that
resolved to at least one IPv4 address, bound to the **last** IPv4 address
resolved for that hostname; teardown issues exactly one delete per recorded
entry, using that stored address (earlier addresses of a multi-address
hostname get no delete); and the table is left unchanged — not emptied — by
teardown. -/
theorem C1_amended_install_teardown
    (lookup : String → Except String (List (Option String))) (delOk : String → Bool)
    (hdel : ∀ x, delOk x = true) :
    (AddBypassRoutes lookup).routes =
      bypassHosts.filterMap (fun h => (lastV4 lookup h).map (fun d => (h, d))) ∧
    (RemoveBypassRoutes delOk (AddBypassRoutes lookup)).1 =
      (AddBypassRoutes lookup).routes.map Prod.snd ∧
    (RemoveBypassRoutes delOk (AddBypassRoutes lookup)).2 = AddBypassRoutes lookup := by
  refine ⟨?_, ?_, rfl⟩
  · have hchar := foldl_bypass_routes lookup bypassHosts ⟨[], []⟩ (by decide)
      (fun h hh => by simp)
    simpa [AddBypassRoutes] using hchar
  · exact rangeDeletes_all_ok delOk hdel _

/-- Witness for `C1_amended_install_teardown` at the two-address resolver. -/
theorem C1_amended_witness :
    (AddBypassRoutes lkTwoAddrs).routes =
      bypassHosts.filterMap (fun h => (lastV4 lkTwoAddrs h).map (fun d => (h, d))) ∧
    (RemoveBypassRoutes (fun _ => true) (AddBypassRoutes lkTwoAddrs)).1 =
      (AddBypassRoutes lkTwoAddrs).routes.map Prod.snd ∧
    (RemoveBypassRoutes (fun _ => true) (AddBypassRoutes lkTwoAddrs)).2 =
      AddBypassRoutes lkTwoAddrs :=
  C1_amended_install_teardown lkTwoAddrs (fun _ => true) (fun _ => rfl)

/-! ## Claim C2 -/

/-- Claim C2, code-bug evaluation.  With two recorded entries
(`stun.cloudflare.com ↦ 1.1.1.1`, `turn.cloudflare.com ↦ 2.2.2.2`) and every
`ip route del` failing, `RemoveBypassRoutes` issues only the one delete that
failed: the `Range` callback returns `false` after logging the failure, which
stops the iteration, so the delete of the remaining recorded entry `2.2.2.2`
is never attempted — contradicting the claim that a failed delete never
prevents the delete of any other entry. -/
theorem C2_delete_failure_stops_teardown :
    (RemoveBypassRoutes cmdAllFail (AddBypassRoutes lkTwoHosts)).1 = ["1.1.1.1"] ∧
    ("turn.cloudflare.com", "2.2.2.2") ∈ (AddBypassRoutes lkTwoHosts).routes ∧
    "2.2.2.2" ∉ (RemoveBypassRoutes cmdAllFail (AddBypassRoutes lkTwoHosts)).1 := by
  decide

/-! ## Claim C3 -/

/-- Claim C3, counterexample.  `AddBypassRoutes` never inspects the result of
the `ip route add` command (`cmd.Run()` with the error discarded), so under
the oracle `cmdAllFail` — every install command fails — the entry
`(guardian.veilnet.org, 9.9.9.9)` is recorded all the same, and teardown
issues a delete for `9.9.9.9`, an address whose install command failed:
recording does not depend on install success, contradicting the claim. -/
theorem C3_counterexample :
    ("guardian.veilnet.org", "9.9.9.9") ∈ (AddBypassRoutes lkOneAddr).routes ∧
    cmdAllFail "9.9.9.9" = false ∧
    "9.9.9.9" ∈ (RemoveBypassRoutes (fun _ => true) (AddBypassRoutes lkOneAddr)).1 := by
  decide

/-- Claim C3 as amended: route-install failures are ignored, not detected —
the address is recorded whether or not its install command succeeded.
`RemoveBypassRoutes` (all deletes succeeding) issues deletes exactly for the
recorded addresses, and every recorded address is one for which an install
command was issued — but not necessarily one whose install succeeded. -/
theorem C3_amended_recorded_regardless
    (lookup : String → Except String (List (Option String))) (delOk : String → Bool)
    (hdel : ∀ x, delOk x = true) :
    (RemoveBypassRoutes delOk (AddBypassRoutes lookup)).1 =
      (AddBypassRoutes lookup).routes.map Prod.snd ∧
    ∀ p ∈ (AddBypassRoutes lookup).routes, p.2 ∈ (AddBypassRoutes lookup).adds := by
  constructor
  · exact rangeDeletes_all_ok delOk hdel _
  · exact foldl_bypass_inv lookup bypassHosts ⟨[], []⟩ (by simp)

/-- Witness for `C3_amended_recorded_regardless` at the one-address resolver. -/
theorem C3_amended_witness :
    (RemoveBypassRoutes (fun _ => true) (AddBypassRoutes lkOneAddr)).1 =
      (AddBypassRoutes lkOneAddr).routes.map Prod.snd ∧
    "9.9.9.9" ∈ (AddBypassRoutes lkOneAddr).adds :=
  ⟨(C3_amended_recorded_regardless lkOneAddr (fun _ => true) (fun _ => rfl)).1,
   (C3_amended_recorded_regardless lkOneAddr (fun _ => true) (fun _ => rfl)).2
     ("guardian.veilnet.org", "9.9.9.9") (by decide)⟩

end Conflux

namespace Conflux

/-! ## Claim C4 -/

/-- Stepping the `via`/`dev` scan past the head field: the surviving value is
described by the last qualifying occurrence in the remaining fields, with the
head field only updating the running default. -/
theorem lastAfter_cons_cons (key x y : List Char) (rest : List (List Char)) (g : List Char) :
    (lastAfter key (x :: y :: rest)).getD g =
      (lastAfter key (y :: rest)).getD (if x = key then y else g) := by
  unfold lastAfter
  simp only [List.tail_cons, List.zip_cons_cons]
  by_cases hk : x = key
  · simp only [List.filterMap_cons, if_pos hk]
    cases hM : lastSome (((y :: rest).zip rest).filterMap
        (fun p => if p.1 = key then some p.2 else none)) with
    | none => simp [lastSome, hM, hk]
    | some w => simp [lastSome, hM, hk]
  · simp [List.filterMap_cons, hk]

/-- The field scan of `DetectHostGateway` computes, for each of `via` and
`dev`, the value following the **last** occurrence that has a following
field (falling back to the initial accumulator). -/
theorem scanFields_eq (fs : List (List Char)) : ∀ g d,
    scanFields fs g d = ((lastAfter viaChars fs).getD g, (lastAfter devChars fs).getD d) := by
  induction fs with
  | nil => intro g d; rfl
  | cons x t ih =>
    cases t with
    | nil => intro g d; rfl
    | cons y rest =>
      intro g d
      simp only [scanFields]
      rw [ih, lastAfter_cons_cons, lastAfter_cons_cons]

/-- The line-selection loop of `DetectHostGateway` picks the first line
beginning with `default`. -/
theorem firstDefaultLine_eq (ls : List (List Char)) :
    firstDefaultLine ls = ls.find? (fun l => leadsWith defaultChars l) := by
  induction ls with
  | nil => rfl
  | cons l rest ih =>
    cases h : leadsWith defaultChars l <;> simp [firstDefaultLine, List.find?_cons, h, ih]

/-- Claim C4, counterexample.  On the output
`"default\ndefault via 1.2.3.4 dev eth0"` the command executed and the second
default-route line yields both a gateway and an interface, yet
`DetectHostGateway` fails: it commits to the **first** line beginning with
`default` (which has no `via`/`dev` fields) and never considers later
default-route lines — contradicting the claim that it fails exactly when the
command cannot be executed or no default-route line yields both values. -/
theorem C4_counterexample :
    DetectHostGateway (Except.ok "default\ndefault via 1.2.3.4 dev eth0") =
      Except.error "host default gateway or interface not found" ∧
    (splitOnChar '\n' ("default\ndefault via 1.2.3.4 dev eth0").data).any lineYieldsBoth
      = true := by
  exact ⟨rfl, rfl⟩

/-- Claim C4 as amended: `DetectHostGateway` considers only the **first** line
beginning with `default` (unrelated earlier lines are skipped; leading
whitespace on the default line is not tolerated, repeated whitespace between
fields is); from that line it returns the value after the last `via` field
and the value after the last `dev` field; and it fails exactly when the
command cannot be executed, or no line begins with `default`, or that first
default line lacks a `via` value or a `dev` value — even when a later
default-route line would yield both. -/
theorem C4_amended_first_default_line (cmdOut : Except String String) :
    DetectHostGateway cmdOut = DetectHostGatewayAmended cmdOut := by
  cases cmdOut with
  | error e => rfl
  | ok out =>
    simp only [DetectHostGateway, DetectHostGatewayAmended, firstDefaultLine_eq]
    cases hf : (splitOnChar '\n' out.data).find? (fun l => leadsWith defaultChars l) with
    | none => rfl
    | some line => simp only [scanFields_eq]

end Conflux

namespace Conflux

/-! ## Claim C5 -/

/-- The re-framed buffer is exactly sixteen zero bytes followed by the
datagram, unchanged. -/
theorem ingressNewBuf_eq (b : List Nat) :
    ingressNewBuf b = List.replicate 16 0 ++ b := by
  unfold ingressNewBuf goMake goCopy
  simp [List.take_replicate, List.drop_replicate]

/-- Claim C5: for every datagram of size `S` received by the ingress loop,
the buffer passed to the virtual-interface write consists of exactly a
16-byte (zeroed) head followed by the `S` bytes of the datagram unchanged,
and the write is invoked with offset 16. -/
theorem C5_ingress_framing (bufs : List (List Nat)) :
    ingressBatch bufs = bufs.map (fun b => List.replicate 16 0 ++ b) ∧
    (∀ b ∈ bufs, ingressNewBuf b = List.replicate 16 0 ++ b ∧
      (ingressNewBuf b).length = 16 + b.length) ∧
    ingressWriteOffset = 16 := by
  refine ⟨?_, ?_, rfl⟩
  · simp [ingressBatch, ingressNewBuf_eq]
  · intro b _
    refine ⟨ingressNewBuf_eq b, ?_⟩
    rw [ingressNewBuf_eq]
    simp
    omega

/-- Witness for `C5_ingress_framing` on a concrete two-datagram batch. -/
theorem C5_ingress_witness :
    ingressBatch [[7], [1, 2, 3]] =
      [[7], [1, 2, 3]].map (fun b => List.replicate 16 0 ++ b) ∧
    (∀ b ∈ [[7], [1, 2, 3]], ingressNewBuf b = List.replicate 16 0 ++ b ∧
      (ingressNewBuf b).length = 16 + b.length) ∧
    ingressWriteOffset = 16 :=
  C5_ingress_framing [[7], [1, 2, 3]]

/-! ## Claim C6 -/

/-- Claim C6, counterexample.  Starting from a host default route via
`192.168.1.1` on `eth0` with metric 100, running the Rift apply commands and
then the Rift teardown commands leaves a single default route via the same
gateway and interface but with metric 0: the restore command
`ip route add default via ... dev ...` carries no metric argument (and the
pre-apply metric was never recorded), so the pre-apply route table is **not**
restored. -/
theorem C6_counterexample :
    runCmds [⟨some "192.168.1.1", some "eth0", 100⟩]
        (riftApplyCmds "192.168.1.1" "eth0" ++ riftCleanCmds "192.168.1.1" "eth0") =
      [⟨some "192.168.1.1", some "eth0", 0⟩] ∧
    runCmds [⟨some "192.168.1.1", some "eth0", 100⟩]
        (riftApplyCmds "192.168.1.1" "eth0" ++ riftCleanCmds "192.168.1.1" "eth0") ≠
      [⟨some "192.168.1.1", some "eth0", 100⟩] := by
  decide

/-- Claim C6 as amended: for every detected host default route
`(gateway, interface, metric)` (with the interface distinct from the virtual
interface name), a successful Rift-mode `ConfigHost` followed by
`CleanHostConfiguraions` removes the virtual-interface default route and the
demoted (metric-50) original route, and restores a default route with the
pre-apply gateway and interface — but at the route tool's default metric 0,
not at the recorded pre-apply metric: the pre-apply metric is recovered only
when it was already 0. -/
theorem C6_amended_rift_roundtrip (g i : String) (m0 : Nat) (hi : i ≠ "veilnet") :
    runCmds [⟨some g, some i, m0⟩] (riftApplyCmds g i ++ riftCleanCmds g i) =
      [⟨some g, some i, 0⟩] := by
  simp [runCmds, riftApplyCmds, riftCleanCmds, runCmd, delFirst, routeMatches, hi]

/-- Witness for `C6_amended_rift_roundtrip` at a concrete route. -/
theorem C6_amended_witness :
    runCmds [⟨some "192.168.1.1", some "wlan0", 600⟩]
        (riftApplyCmds "192.168.1.1" "wlan0" ++ riftCleanCmds "192.168.1.1" "wlan0") =
      [⟨some "192.168.1.1", some "wlan0", 0⟩] :=
  C6_amended_rift_roundtrip "192.168.1.1" "wlan0" 600 (by decide)

/-! ## Claim C7 -/

/-- Claim C7: for every prior host IP-forwarding state, a successful
Portal-mode `ConfigHost` followed by `CleanHostConfiguraions` leaves IP
forwarding in its pre-apply boolean state, and teardown issues the disable
command exactly when apply found forwarding disabled (and enabled it). -/
theorem C7_portal_forward_roundtrip (pre : Bool) :
    (portalCleanForward (portalApplyForward pre).1 (portalApplyForward pre).2).1 = pre ∧
    (portalCleanForward (portalApplyForward pre).1 (portalApplyForward pre).2).2 = !pre := by
  revert pre
  decide

/-! ## Claim C8 -/

/-- Once the guard has fired, further `Stop` invocations do nothing. -/
theorem runStops_done (n : Nat) (c : ConfluxStop) (h : c.onceDone = true) :
    runStops n c = (c, []) := by
  induction n with
  | zero => rfl
  | succ m ih => simp [runStops, Stop, h, ih]

/-- Claim C8: for every sequence of one or more `Stop` invocations, the
teardown body — stop the tunnel endpoint, retract the host configuration,
remove the bypass routes, close the interface — executes exactly once, in
that order, and runs to completion (the full trace of all invocations
together is exactly one copy of the body). -/
theorem C8_stop_exactly_once (n : Nat) (h : 1 ≤ n) :
    (runStops n ⟨false, true, true⟩).2 =
      [TeardownStep.anchorStop, TeardownStep.cleanHost,
        TeardownStep.removeBypass, TeardownStep.closeDevice] ∧
    (runStops n ⟨false, true, true⟩).1.onceDone = true := by
  match n, h with
  | m + 1, _ =>
    have hd : runStops m ⟨true, false, true⟩ = (⟨true, false, true⟩, []) :=
      runStops_done m _ rfl
    simp [runStops, Stop, stopBody, hd]

/-- Witness for `C8_stop_exactly_once` at three invocations. -/
theorem C8_stop_witness :
    (runStops 3 ⟨false, true, true⟩).2 =
      [TeardownStep.anchorStop, TeardownStep.cleanHost,
        TeardownStep.removeBypass, TeardownStep.closeDevice] ∧
    (runStops 3 ⟨false, true, true⟩).1.onceDone = true :=
  C8_stop_exactly_once 3 (by decide)

/-! ## Claim C9 -/

/-- Claim C9, code-bug evaluation.  When the graceful shutdown does not
complete within the 10-second timeout, the `select` in `Up.Run` merely logs
"Shutdown timeout, forcing exit" and `Run` returns `nil`, so `main` does not
call `os.Exit(1)` and the process ends with exit code 0 — the same exit code
as a graceful stop, contradicting the claim that the timeout path terminates
with a non-zero exit code. -/
theorem C9_timeout_exit_code_zero :
    mainExitCode (upRunAfterSignal ShutdownOutcome.timedOut) = 0 ∧
    mainExitCode (upRunAfterSignal ShutdownOutcome.completed) = 0 ∧
    upRunAfterSignal ShutdownOutcome.timedOut = none := by
  exact ⟨rfl, rfl, rfl⟩

/-! ## Claim C10 -/

/-- Claim C10: on the macOS variant, every netmask string other than `8`,
`16`, `24` and `32` makes `convertNetmask` fall through to `255.255.255.0`,
so the `ifconfig` invocation of `ConfigHost` configures any such negotiated
length as a /24 mask. -/
theorem C10_convertNetmask_default (ip s : String)
    (h8 : s ≠ "8") (h16 : s ≠ "16") (h24 : s ≠ "24") (h32 : s ≠ "32") :
    convertNetmask s = "255.255.255.0" ∧
    darwinIfconfigArgs ip s = ["veilnet", "inet", ip, "netmask", "255.255.255.0"] := by
  have hm : convertNetmask s = "255.255.255.0" := by
    simp [convertNetmask, h8, h16, h24, h32]
  exact ⟨hm, by simp [darwinIfconfigArgs, hm]⟩

/-- Witness for `C10_convertNetmask_default` at the prefix length 20. -/
theorem C10_convertNetmask_witness :
    convertNetmask "20" = "255.255.255.0" ∧
    darwinIfconfigArgs "10.0.0.1" "20" =
      ["veilnet", "inet", "10.0.0.1", "netmask", "255.255.255.0"] :=
  C10_convertNetmask_default "10.0.0.1" "20" (by decide) (by decide) (by decide) (by decide)

end Conflux

namespace Conflux

/-- Witness for `C4_amended_first_default_line` on a concrete route listing
with an unrelated first line. -/
theorem C4_amended_witness :
    DetectHostGateway (Except.ok "10.0.0.0/24 dev eth1\ndefault via 10.0.0.1 dev eth1") =
      DetectHostGatewayAmended
        (Except.ok "10.0.0.0/24 dev eth1\ndefault via 10.0.0.1 dev eth1") ∧
    DetectHostGateway (Except.ok "10.0.0.0/24 dev eth1\ndefault via 10.0.0.1 dev eth1") =
      Except.ok ("10.0.0.1", "eth1") :=
  ⟨C4_amended_first_default_line _, rfl⟩

/-- Witness for `C7_portal_forward_roundtrip` with forwarding initially off. -/
theorem C7_portal_forward_witness :
    (portalCleanForward (portalApplyForward false).1 (portalApplyForward false).2).1 = false ∧
    (portalCleanForward (portalApplyForward false).1 (portalApplyForward false).2).2 = !false :=
  C7_portal_forward_roundtrip false

end Conflux
